import Mathlib

/-!
# FileWorker: a verified shallow embedding

Shallow embedding of the two Cloudflare Pages functions of the FileWorker
repository:

* `src/functions/[filename].ts` — GET / PUT / PATCH / DELETE handlers for a
  single-parameter route, plus a catch-all 405 handler;
* `src/functions/[[path]].ts` — the catch-all GET router that re-uses the
  read handler.

JavaScript strings are modelled as Lean `String`s, `undefined`-able fields as
`Option`, thrown exceptions as `Except` errors, and the S3 bucket state as a
function from object keys to optional stored objects.
-/

namespace FileWorker

/-! ## Percent decoding (JS `decodeURIComponent`)

`decodeURIComponent` percent-decodes its argument and throws a `URIError`
when an escape sequence is malformed: a `%` not followed by two hex digits,
or escaped bytes that do not form a valid UTF-8 encoding of a Unicode scalar
value (continuation bytes must themselves appear as `%XX` escapes; overlong
encodings, surrogate code points and values above `0x10FFFF` are rejected).
The model returns `none` where JS throws. -/

/-- Value of one hex digit, `none` for a non-hex character
(both cases accepted, as in JS). -/
def hexDigit (c : Char) : Option Nat :=
  if '0' ≤ c ∧ c ≤ '9' then some (c.toNat - 48)
  else if 'A' ≤ c ∧ c ≤ 'F' then some (c.toNat - 55)
  else if 'a' ≤ c ∧ c ≤ 'f' then some (c.toNat - 87)
  else none

/-- The byte denoted by two hex digits. -/
def hexByte (h l : Char) : Option Nat :=
  match hexDigit h, hexDigit l with
  | some a, some b => some (16 * a + b)
  | _, _ => none

/-- Is `b` a UTF-8 continuation byte? -/
def isCont (b : Nat) : Bool := 128 ≤ b ∧ b < 192

mutual

/-- Percent-decode a character list (the body of `decodeURIComponent`).
Characters other than `%` pass through unchanged; a `%` must start a fully
escaped, valid UTF-8 sequence. -/
def decodeChars : List Char → Option (List Char)
  | [] => some []
  | '%' :: rest => decodeEscape rest
  | c :: rest => (decodeChars rest).map (c :: ·)

/-- Decode one escape sequence: the input starts right after a `%`. The two
hex digits give the leading byte, whose class determines how many `%XX`
continuation bytes must follow. -/
def decodeEscape : List Char → Option (List Char)
  | h1 :: h2 :: r1 =>
    match hexByte h1 h2 with
    | none => none
    | some b =>
      if b < 128 then (decodeChars r1).map (Char.ofNat b :: ·)
      else if b < 192 then none
      else if b < 224 then decodeTwoByte b r1
      else if b < 240 then decodeThreeByte b r1
      else if b < 248 then decodeFourByte b r1
      else none
  | _ => none

/-- Decode the continuation of a two-byte UTF-8 sequence with leading byte
`b`; rejects overlong encodings (below `U+0080`). -/
def decodeTwoByte (b : Nat) : List Char → Option (List Char)
  | '%' :: h3 :: h4 :: r2 =>
    match hexByte h3 h4 with
    | none => none
    | some b2 =>
      if isCont b2 then
        let v := (b - 192) * 64 + (b2 - 128)
        if 128 ≤ v then (decodeChars r2).map (Char.ofNat v :: ·)
        else none
      else none
  | _ => none

/-- Decode the continuation of a three-byte UTF-8 sequence with leading byte
`b`; rejects overlong encodings and surrogate code points. -/
def decodeThreeByte (b : Nat) : List Char → Option (List Char)
  | '%' :: h3 :: h4 :: '%' :: h5 :: h6 :: r2 =>
    match hexByte h3 h4, hexByte h5 h6 with
    | some b2, some b3 =>
      if isCont b2 ∧ isCont b3 then
        let v := (b - 224) * 4096 + (b2 - 128) * 64 + (b3 - 128)
        if 2048 ≤ v ∧ ¬(55296 ≤ v ∧ v < 57344) then
          (decodeChars r2).map (Char.ofNat v :: ·)
        else none
      else none
    | _, _ => none
  | _ => none

/-- Decode the continuation of a four-byte UTF-8 sequence with leading byte
`b`; rejects overlong encodings and values above `U+10FFFF`. -/
def decodeFourByte (b : Nat) : List Char → Option (List Char)
  | '%' :: h3 :: h4 :: '%' :: h5 :: h6 :: '%' :: h7 :: h8 :: r2 =>
    match hexByte h3 h4, hexByte h5 h6, hexByte h7 h8 with
    | some b2, some b3, some b4 =>
      if isCont b2 ∧ isCont b3 ∧ isCont b4 then
        let v := (b - 240) * 262144 + (b2 - 128) * 4096
                 + (b3 - 128) * 64 + (b4 - 128)
        if 65536 ≤ v ∧ v ≤ 1114111 then
          (decodeChars r2).map (Char.ofNat v :: ·)
        else none
      else none
    | _, _, _ => none
  | _ => none

end

/-- JS `decodeURIComponent`: `none` models a thrown `URIError`. -/
def decodeURIComponent (s : String) : Option String :=
  (decodeChars s.data).map List.asString

/-! ## Key normalization, as each handler performs it -/

/-- `key.endsWith("/") ? key.slice(0, -1) : key` — strip exactly one
trailing slash (`[filename].ts` line 23), expressed on the character list:
ending with `"/"` is having `'/'` as last character, and `slice(0, -1)`
drops the last character. -/
def stripTrailingSlash (s : String) : String :=
  if s.data.getLast? = some '/' then s.data.dropLast.asString else s

/-- The object key the GET handler uses for a raw `filename` parameter:
`decodeURIComponent(filename)` then the single trailing-slash strip
(`[filename].ts` lines 22–23). `none` models the uncaught `URIError`. -/
def getKeyOfFilename (f : String) : Option String :=
  (decodeURIComponent f).map stripTrailingSlash

/-- The object key the PUT handler uses:
`decodeURIComponent(filename)`, with no further processing
(`[filename].ts` line 92). -/
def putKeyOfFilename (f : String) : Option String :=
  decodeURIComponent f

/-- The object key the PATCH handler uses, both as `CopySource` suffix and as
`Key`: `decodeURIComponent(filename)` (`[filename].ts` lines 122–123). -/
def patchKeyOfFilename (f : String) : Option String :=
  decodeURIComponent f

/-- The object key the DELETE handler uses:
`decodeURIComponent(filename)` (`[filename].ts` line 142). -/
def deleteKeyOfFilename (f : String) : Option String :=
  decodeURIComponent f

/-- `url.pathname.replace(/^\/+/, "")` — strip every leading slash
(`[[path]].ts` line 8). -/
def stripLeadingSlashes (s : String) : String :=
  (s.data.dropWhile (· = '/')).asString

/-- The object key produced by the catch-all GET route for a URL pathname:
the router strips leading slashes and percent-decodes once
(`[[path]].ts` line 8), stores the decoded string as the `filename`
parameter, and delegates to the read handler, which decodes again and
strips a trailing slash (`[[path]].ts` lines 9–12, `[filename].ts`
lines 22–23). -/
def catchAllKey (pathname : String) : Option String :=
  (decodeURIComponent (stripLeadingSlashes pathname)).bind getKeyOfFilename

/-! ## The `Headers` object

The fetch API's `Headers` lowercases header names; `set` replaces any entry
of that (lowercased) name, `get` retrieves it. The model keeps a list of
(lowercase-name, value) pairs; `headersSet` filters the old entry out and
appends, which agrees with `Headers` on every `get`. -/

/-- JS `toLowerCase`, characterwise. -/
def lcString (s : String) : String :=
  (s.data.map Char.toLower).asString

/-- `headers.set(name, value)`. -/
def headersSet (h : List (String × String)) (name value : String) :
    List (String × String) :=
  (h.filter (fun kv => kv.1 != lcString name)) ++ [(lcString name, value)]

/-- `headers.get(name)` (`null` is `none`). -/
def headersGet (h : List (String × String)) (name : String) : Option String :=
  h.lookup (lcString name)

/-! ## The `mime/lite` lookup (external collaborator)

`mime.getType(path)` takes the basename after the last `/` or `\`, lowercases
it, takes the extension after its last `.`, and looks that up in the standard
type table; the lookup is only consulted when the basename has a real dot
extension or the path has no separator at all. The table here is a
representative finite subset of the package's standard table. -/

/-- A representative part of the `mime/lite` standard extension table. -/
def mimeTable : List (String × String) :=
  [("txt", "text/plain"), ("json", "application/json"), ("html", "text/html"),
   ("htm", "text/html"), ("css", "text/css"), ("js", "text/javascript"),
   ("png", "image/png"), ("jpg", "image/jpeg"), ("jpeg", "image/jpeg"),
   ("gif", "image/gif"), ("svg", "image/svg+xml"), ("pdf", "application/pdf"),
   ("xml", "application/xml"), ("zip", "application/zip"),
   ("mp4", "video/mp4"), ("mp3", "audio/mpeg"), ("wasm", "application/wasm"),
   ("webp", "image/webp"), ("csv", "text/csv"), ("md", "text/markdown"),
   ("bin", "application/octet-stream")]

/-- The suffix of `l` after the last character satisfying `p` (all of `l`
when none does) — the effect of JS `replace(/^.*SEP/, "")`. -/
def afterLast (p : Char → Bool) (l : List Char) : List Char :=
  (l.reverse.takeWhile (fun c => ! p c)).reverse

/-- `mime.getType(path)` of the `mime` package (v3 `lite`). -/
def mimeGetType (path : String) : Option String :=
  let last := (afterLast (fun c => c = '/' || c = '\\') path.data).map Char.toLower
  let ext := afterLast (fun c => c = '.') last
  let hasPath := decide (last.length < path.data.length)
  let hasDot := decide (ext.length < last.length - 1)
  if hasDot || !hasPath then mimeTable.lookup ext.asString else none

/-! ## Requests, responses, storage -/

instance {ε α : Type} [DecidableEq ε] [DecidableEq α] : DecidableEq (Except ε α) := fun
  | .error e, .error f =>
    if h : e = f then .isTrue (congrArg Except.error h)
    else .isFalse (fun c => h (Except.error.inj c))
  | .error _, .ok _ => .isFalse (fun c => Except.noConfusion c)
  | .ok _, .error _ => .isFalse (fun c => Except.noConfusion c)
  | .ok a, .ok b =>
    if h : a = b then .isTrue (congrArg Except.ok h)
    else .isFalse (fun c => h (Except.ok.inj c))

/-- JS exceptions a handler can end in instead of an HTTP response. -/
inductive JsError where
  /-- `decodeURIComponent` threw on a malformed escape. -/
  | uriError
  /-- A field access or method call on `undefined` threw. -/
  | typeError
  /-- An awaited storage call (`s3.send`, `Upload.done`) rejected. -/
  | s3Error
deriving DecidableEq

/-- Failures of the storage capability as seen through `s3.send`. -/
inductive S3Error where
  /-- The object does not exist. -/
  | noSuchKey
  /-- Any other retrieval failure (network, permission, transient). -/
  | other
deriving DecidableEq

/-- The fields of the SDK's `GetObjectCommandOutput` the read handler uses.
Every field is optional in the SDK's type; `LastModified` is modelled by its
`toUTCString()` rendering and `Body` by an opaque stream token. -/
structure GetObjectCommandOutput where
  Metadata : Option (List (String × String))
  ContentType : Option String
  ContentLength : Option Nat
  LastModified : Option String
  ETag : Option String
  Body : String
deriving DecidableEq

/-- A `Response` body: either a text literal or the forwarded object stream. -/
inductive RespBody where
  | text (s : String)
  | stream (tok : String)
deriving DecidableEq

/-- An HTTP `Response`. -/
structure HttpResponse where
  status : Nat
  body : RespBody
  headers : List (String × String)
deriving DecidableEq

/-- `Headers.set` stringifies its value: JS `undefined` becomes the string
`"undefined"` rather than throwing. -/
def jsStringOf : Option String → String
  | some s => s
  | none => "undefined"

/-- The metadata projection loop of the read handler (`[filename].ts`
lines 37–40): `headers.set(key, value)` for every `Metadata` entry. -/
def mdHeaders (md : List (String × String)) : List (String × String) :=
  md.foldl (fun h kv => headersSet h kv.1 kv.2) []

/-- A stored object: content bytes (opaque token) and its metadata map. -/
structure StoredObject where
  body : String
  meta : List (String × String)
deriving DecidableEq

/-- The bucket: a partial map from object keys to stored objects. -/
def StoreState : Type := String → Option StoredObject

/-- Replace the object stored at `key`. -/
def updateState (σ : StoreState) (key : String) (obj : StoredObject) : StoreState :=
  fun k => if k = key then some obj else σ k

/-! ## The four handlers of `[filename].ts` -/

/-- The GET handler `onRequestGet` (`[filename].ts` lines 15–70). `store` is
the bucket's `GetObjectCommand` capability, `authp` the value of
`auth(env, request)`. Mirrors the source statement by statement: decode and
slash-strip the key; 404 on any storage failure; project `Metadata` onto
headers; resolve `content-type` (generic sentinel → `mime.getType`, then the
`x-store-type === "text"` override); set `content-length`, `last-modified`,
`etag`; 404 when the visibility header is not `"public"` and `auth` fails;
else set `content-disposition` and stream the body. -/
def onRequestGet (store : String → Except S3Error GetObjectCommandOutput)
    (authp : Bool) (filename : String) : Except JsError HttpResponse :=
  match decodeURIComponent filename with
  | none => .error .uriError
  | some k0 =>
    let key := stripTrailingSlash k0
    match store key with
    | .error _ => .ok ⟨404, .text "Not found", []⟩
    | .ok response =>
      match response.Metadata with
      | none => .error .typeError
      | some md =>
        let headers := mdHeaders md
        let contentType :=
          if response.ContentType ≠ some "application/octet-stream"
            then jsStringOf response.ContentType
            else (mimeGetType key).getD "application/octet-stream"
        let headers := headersSet headers "content-type" contentType
        let headers :=
          if md.lookup "x-store-type" = some "text"
            then headersSet headers "content-type" "text/plain;charset=utf-8"
            else headers
        match response.ContentLength with
        | none => .error .typeError
        | some len =>
          let headers := headersSet headers "content-length" (toString len)
          match response.LastModified with
          | none => .error .typeError
          | some lm =>
            let headers := headersSet headers "last-modified" lm
            let headers := headersSet headers "etag" (jsStringOf response.ETag)
            if headersGet headers "x-store-visibility" ≠ some "public" ∧ authp = false
              then .ok ⟨404, .text "Not found", []⟩
              else
                let headers := headersSet headers "content-disposition"
                  ("inline; filename=\"" ++ key ++ "\"")
                .ok ⟨200, .stream response.Body, headers⟩

/-- The `x-store-` header collection loop shared by PUT and PATCH
(`[filename].ts` lines 81–87 and 113–119). The request's headers arrive in
`Headers` form (lowercased unique names), so the prefix test is effectively
case-insensitive on the wire. -/
def xStoreHeaders (reqHeaders : List (String × String)) : List (String × String) :=
  reqHeaders.filter (fun kv => "x-store-".data.isPrefixOf kv.1.data)

/-- The PUT handler `onRequestPut` (`[filename].ts` lines 73–102): 401 before
anything else when `auth` fails; otherwise decode the key (no slash strip)
and run the multipart `Upload`. The transfer itself is external
(`@aws-sdk/lib-storage` + S3) and is modelled from the spec §4.5: on success
it durably stores the request body with the collected `x-store-*` metadata
at the key; on failure it leaves no partial data (`leavePartsOnError:
false`) and `await parallelUploads3.done()` throws. `uploadOk` is that
external outcome. -/
def onRequestPut (σ : StoreState) (authp : Bool)
    (reqHeaders : List (String × String)) (filename : String) (body : String)
    (uploadOk : Bool) : Except JsError (HttpResponse × StoreState) :=
  if authp = false then .ok (⟨401, .text "Unauthorized", []⟩, σ)
  else
    match decodeURIComponent filename with
    | none => .error .uriError
    | some key =>
      if uploadOk then
        .ok (⟨200, .text "OK", []⟩, updateState σ key ⟨body, xStoreHeaders reqHeaders⟩)
      else .error .s3Error

/-- Modelled from the spec: the storage capability's same-key copy operation
(`CopyObjectCommand` with `MetadataDirective: "REPLACE"`, external S3; spec
§3 and §4.6 step 4). It fails when the source object does not exist — no
implicit creation — and otherwise stores the source object's unchanged
content with exactly the supplied metadata (replaced wholesale, not merged)
at the destination key. -/
def copyObject (σ : StoreState) (src dst : String)
    (meta : List (String × String)) : Except S3Error StoreState :=
  match σ src with
  | none => .error .noSuchKey
  | some obj => .ok (updateState σ dst ⟨obj.body, meta⟩)

/-- The PATCH handler `onRequestPatch` (`[filename].ts` lines 105–129): 401
before anything else when `auth` fails; otherwise decode the key and issue
the same-key copy with `CopySource = BUCKET/key` and replaced metadata. A
rejection of `await s3.send(command)` propagates out of the handler
uncaught. -/
def onRequestPatch (σ : StoreState) (authp : Bool)
    (reqHeaders : List (String × String)) (filename : String) :
    Except JsError (HttpResponse × StoreState) :=
  if authp = false then .ok (⟨401, .text "Unauthorized", []⟩, σ)
  else
    match decodeURIComponent filename with
    | none => .error .uriError
    | some key =>
      match copyObject σ key key (xStoreHeaders reqHeaders) with
      | .error _ => .error .s3Error
      | .ok σ2 => .ok (⟨200, .text "OK", []⟩, σ2)

/-- The DELETE handler `onRequestDelete` (`[filename].ts` lines 132–147): 401
before anything else when `auth` fails; otherwise decode the key, presign a
`DeleteObjectCommand` URL and `fetch` it with method DELETE. The fetch's
outcome is external: `fetchStatus` is the HTTP status the storage service
answered and `fetchDeleted` whether it actually removed the object. The
handler awaits the fetch but reads neither, and answers 200 `"OK"`. -/
def onRequestDelete (σ : StoreState) (authp : Bool) (filename : String)
    (fetchStatus : Nat) (fetchDeleted : Bool) :
    Except JsError (HttpResponse × StoreState) :=
  if authp = false then .ok (⟨401, .text "Unauthorized", []⟩, σ)
  else
    match decodeURIComponent filename with
    | none => .error .uriError
    | some key =>
      let σ2 : StoreState :=
        if fetchDeleted then fun k => if k = key then none else σ k else σ
      let _ := fetchStatus
      .ok (⟨200, .text "OK", []⟩, σ2)

/-- The fall-through handler `onRequest` (`[filename].ts` lines 150–152):
any HTTP method other than the four above. -/
def onRequest : HttpResponse :=
  ⟨405, .text "Method not allowed", []⟩

/-! ## Observations on responses -/

/-- The status of a returned response (`none` when the handler threw). -/
def respStatus : Except JsError HttpResponse → Option Nat
  | .ok r => some r.status
  | .error _ => none

/-- The body of a returned response (`none` when the handler threw). -/
def respBody : Except JsError HttpResponse → Option RespBody
  | .ok r => some r.body
  | .error _ => none

/-- A header of a returned response (`none` when the handler threw or the
header is absent). -/
def respHeader (name : String) : Except JsError HttpResponse → Option String
  | .ok r => headersGet r.headers name
  | .error _ => none

example : decodeURIComponent "a%2Fb" = some "a/b" := by decide
example : decodeURIComponent "a%25b" = some "a%b" := by decide
example : decodeURIComponent "a%" = none := by decide
example : getKeyOfFilename "a/" = some "a" := by decide
example : getKeyOfFilename "a//" = some "a/" := by decide
example : catchAllKey "/a%2525b" = some "a%b" := by decide
example : getKeyOfFilename "a%2525b" = some "a%25b" := by decide

/-! ## Supporting lemmas -/

set_option maxHeartbeats 1000000 in
theorem decodeChars_of_not_mem (l : List Char) (h : '%' ∉ l) :
    decodeChars l = some l := by
  induction l with
  | nil => rfl
  | cons c t ih =>
    have hc : ¬c = '%' := fun e => h (e ▸ List.mem_cons_self c t)
    have ht : '%' ∉ t := fun m => h (List.mem_cons_of_mem c m)
    simp only [decodeChars, hc]
    rw [ih ht]
    rfl

theorem decodeURIComponent_of_not_mem (s : String) (h : '%' ∉ s.data) :
    decodeURIComponent s = some s := by
  obtain ⟨l⟩ := s
  show (decodeChars l).map List.asString = some ⟨l⟩
  rw [decodeChars_of_not_mem l h]
  rfl

theorem stripTrailingSlash_of_not_slash (s : String)
    (h : s.data.getLast? ≠ some '/') : stripTrailingSlash s = s := by
  simp [stripTrailingSlash, h]

theorem lookup_filter_append (m n v : String) (hne : m ≠ n)
    (h : List (String × String)) :
    ((h.filter (fun kv => kv.1 != n)) ++ [(n, v)]).lookup m = h.lookup m := by
  induction h with
  | nil =>
    have hb : (m == n) = false := by simp [hne]
    simp [List.lookup, hb]
  | cons a t ih =>
    obtain ⟨k, w⟩ := a
    by_cases hk : k = n
    · subst hk
      have hb : (m == k) = false := by simp [hne]
      simp only [List.filter, bne_self_eq_false, List.lookup, hb]
      exact ih
    · have hb : (k != n) = true := by simp [hk]
      simp only [List.filter, hb, List.cons_append, List.lookup]
      rw [ih]

theorem lookup_filter_append_self (n v : String) (h : List (String × String)) :
    ((h.filter (fun kv => kv.1 != n)) ++ [(n, v)]).lookup n = some v := by
  induction h with
  | nil => simp [List.lookup]
  | cons a t ih =>
    obtain ⟨k, w⟩ := a
    by_cases hk : k = n
    · subst hk
      simpa [List.filter] using ih
    · have hnk : ¬n = k := fun e => hk e.symm
      have hb : (k != n) = true := by simp [hk]
      have hb2 : (n == k) = false := by simp [hnk]
      simp only [List.filter, hb, List.cons_append, List.lookup, hb2]
      exact ih

theorem headersGet_headersSet_ne (h : List (String × String)) (n v m : String)
    (hne : lcString m ≠ lcString n) :
    headersGet (headersSet h n v) m = headersGet h m :=
  lookup_filter_append (lcString m) (lcString n) v hne h

theorem headersGet_headersSet_same (h : List (String × String)) (n v : String) :
    headersGet (headersSet h n v) n = some v :=
  lookup_filter_append_self (lcString n) v h

theorem lookup_value_prop {P : String → Prop} :
    ∀ (l : List (String × String)), (∀ p ∈ l, P p.2) →
      ∀ {k v : String}, l.lookup k = some v → P v := by
  intro l hl k v h
  induction l with
  | nil => simp [List.lookup] at h
  | cons a t ih =>
    rw [List.lookup] at h
    cases hk : k == a.1 with
    | true =>
      rw [hk] at h
      exact (Option.some_inj.mp h) ▸ hl a (List.mem_cons_self a t)
    | false =>
      rw [hk] at h
      exact ih (fun p hp => hl p (List.mem_cons_of_mem a hp)) h

theorem mimeGetType_ne_empty (path v : String)
    (h : mimeGetType path = some v) : v ≠ "" := by
  simp only [mimeGetType] at h
  split at h
  · exact lookup_value_prop (P := fun s => s ≠ "") mimeTable (by decide) h
  · exact Option.noConfusion h

theorem exists_ok_ite (c : Prop) [Decidable c] (a b : HttpResponse) :
    ∃ r, (if c then (Except.ok a : Except JsError HttpResponse) else .ok b)
      = .ok r := by
  by_cases h : c
  · exact ⟨a, by simp [h]⟩
  · exact ⟨b, by simp [h]⟩

theorem headersGet_vis_chain (b : List (String × String)) (ct0 cl lm et : String)
    (cond : Prop) [Decidable cond] :
    headersGet (headersSet (headersSet (headersSet
        (if cond then
          headersSet (headersSet b "content-type" ct0)
            "content-type" "text/plain;charset=utf-8"
        else headersSet b "content-type" ct0)
        "content-length" cl) "last-modified" lm) "etag" et) "x-store-visibility"
      = headersGet b "x-store-visibility" := by
  rw [headersGet_headersSet_ne _ "etag" _ "x-store-visibility" (by decide),
      headersGet_headersSet_ne _ "last-modified" _ "x-store-visibility" (by decide),
      headersGet_headersSet_ne _ "content-length" _ "x-store-visibility" (by decide)]
  split
  · rw [headersGet_headersSet_ne _ "content-type" _ "x-store-visibility" (by decide),
        headersGet_headersSet_ne _ "content-type" _ "x-store-visibility" (by decide)]
  · rw [headersGet_headersSet_ne _ "content-type" _ "x-store-visibility" (by decide)]

theorem headersGet_ct_after (x : List (String × String)) (cl lm et cd : String) :
    headersGet (headersSet (headersSet (headersSet (headersSet x
        "content-length" cl) "last-modified" lm) "etag" et)
        "content-disposition" cd) "content-type"
      = headersGet x "content-type" := by
  rw [headersGet_headersSet_ne _ "content-disposition" _ "content-type" (by decide),
      headersGet_headersSet_ne _ "etag" _ "content-type" (by decide),
      headersGet_headersSet_ne _ "last-modified" _ "content-type" (by decide),
      headersGet_headersSet_ne _ "content-length" _ "content-type" (by decide)]

/-! ## The claims -/

/-- Claim C1, counterexample: for the URL path `/a%2525b` — one percent-encoded
percent sign followed by `2F` — the catch-all GET route computes object key
`a%b`, because percent-decoding is applied twice across the router plus
read-handler chain, while the single-parameter filename route computes
`a%25b` for the same raw segment `a%2525b`. The two keys differ, so decoding
is not applied exactly once. -/
theorem catchAll_key_differs_from_single_route :
    catchAllKey "/a%2525b" = some "a%b" ∧
    getKeyOfFilename "a%2525b" = some "a%25b" ∧
    catchAllKey "/a%2525b" ≠ getKeyOfFilename "a%2525b" := by
  decide

/-- Claim C1, amended: across the catch-all chain percent-decoding is applied
twice, not once — the router decodes the slash-stripped pathname and the
read handler decodes the stored parameter again. The catch-all key therefore
matches the single-parameter route's key exactly for paths whose once-decoded
form contains no percent sign (in particular paths using `%2F`), and can
differ when a percent-encoded percent sign is present. -/
theorem catchAll_key_eq_single_route_of_no_percent
    (pathname p : String)
    (hdec : decodeURIComponent (stripLeadingSlashes pathname) = some p)
    (hp : '%' ∉ p.data) :
    catchAllKey pathname = getKeyOfFilename (stripLeadingSlashes pathname) := by
  have h2 : decodeURIComponent p = some p := decodeURIComponent_of_not_mem p hp
  simp [catchAllKey, getKeyOfFilename, hdec, h2]

/-- Claim C1, witness: the spec's own `%2F` example, where the once-decoded
path contains no percent sign and the two routes agree. -/
theorem catchAll_key_eq_single_route_witness :
    decodeURIComponent (stripLeadingSlashes "/a%2Fb") = some "a/b" ∧
    '%' ∉ "a/b".data ∧
    catchAllKey "/a%2Fb" = getKeyOfFilename (stripLeadingSlashes "/a%2Fb") :=
  ⟨by decide, by decide,
   catchAll_key_eq_single_route_of_no_percent "/a%2Fb" "a/b" (by decide) (by decide)⟩

/-- Claim C2, counterexample: the raw filename `a/` ends in a single slash;
the GET handler maps it to object key `a` (trailing slash stripped) but the
PUT, PATCH and DELETE handlers map it to `a/` (no slash strip), so the four
operations do not use the same key for every raw filename. -/
theorem mutating_key_differs_on_trailing_slash :
    getKeyOfFilename "a/" = some "a" ∧
    putKeyOfFilename "a/" = some "a/" ∧
    patchKeyOfFilename "a/" = some "a/" ∧
    deleteKeyOfFilename "a/" = some "a/" ∧
    putKeyOfFilename "a/" ≠ getKeyOfFilename "a/" := by
  decide

/-- Claim C2, amended: PUT, PATCH and DELETE percent-decode the raw filename
but, unlike GET, do not strip a trailing slash. All four operations use the
same object key exactly when the decoded filename does not end with a slash;
a raw filename ending in a single slash maps GET to the slash-stripped key
while the three mutating handlers keep the slash. -/
theorem mutating_keys_eq_get_key_of_no_trailing_slash
    (f k : String)
    (hdec : decodeURIComponent f = some k)
    (hk : k.data.getLast? ≠ some '/') :
    putKeyOfFilename f = getKeyOfFilename f ∧
    patchKeyOfFilename f = getKeyOfFilename f ∧
    deleteKeyOfFilename f = getKeyOfFilename f := by
  have hg : getKeyOfFilename f = some k := by
    simp [getKeyOfFilename, hdec, stripTrailingSlash_of_not_slash k hk]
  simp [putKeyOfFilename, patchKeyOfFilename, deleteKeyOfFilename, hdec, hg]

/-- Claim C2, witness: for `b%2Fc` (decoding to `b/c`, no trailing slash)
all four handlers use the same key. -/
theorem mutating_keys_eq_get_key_witness :
    decodeURIComponent "b%2Fc" = some "b/c" ∧
    "b/c".data.getLast? ≠ some '/' ∧
    putKeyOfFilename "b%2Fc" = getKeyOfFilename "b%2Fc" :=
  ⟨by decide, by decide,
   (mutating_keys_eq_get_key_of_no_trailing_slash "b%2Fc" "b/c"
     (by decide) (by decide)).1⟩

/-- Claim C5, counterexample: the normalizer is not idempotent on every key.
For `a//` one application yields `a/` (percent-decode, then strip exactly one
trailing slash) and a second application yields `a`, so
`normalize (normalize k)` differs from `normalize k`. -/
theorem normalize_not_idempotent :
    getKeyOfFilename "a//" = some "a/" ∧
    getKeyOfFilename "a/" = some "a" ∧
    (getKeyOfFilename "a//").bind getKeyOfFilename ≠ getKeyOfFilename "a//" := by
  decide

/-- Claim C5, amended: the normalizer is idempotent on every key whose
normalized form contains no percent sign and does not end with a slash;
in general a second application can strip a further trailing slash (see the
counterexample) or percent-decode a second time. -/
theorem normalize_idempotent_of_clean
    (k r : String)
    (h : getKeyOfFilename k = some r)
    (hp : '%' ∉ r.data)
    (hs : r.data.getLast? ≠ some '/') :
    getKeyOfFilename r = some r ∧
    (getKeyOfFilename k).bind getKeyOfFilename = getKeyOfFilename k := by
  have h1 : getKeyOfFilename r = some r := by
    simp [getKeyOfFilename, decodeURIComponent_of_not_mem r hp,
      stripTrailingSlash_of_not_slash r hs]
  refine ⟨h1, ?_⟩
  rw [h]
  simpa using h1

/-- Claim C5, witness: `x%41y` normalizes to `xAy`, which re-normalizes to
itself. -/
theorem normalize_idempotent_witness :
    getKeyOfFilename "x%41y" = some "xAy" ∧
    '%' ∉ "xAy".data ∧
    "xAy".data.getLast? ≠ some '/' ∧
    getKeyOfFilename "xAy" = some "xAy" :=
  ⟨by decide, by decide, by decide,
   (normalize_idempotent_of_clean "x%41y" "xAy" (by decide) (by decide)
     (by decide)).1⟩

/-- Claim C4: a PUT, PATCH or DELETE request on which the credential
predicate returns false is answered 401 "Unauthorized" before any storage
operation — the returned bucket state is the input state unchanged — for
every bucket state (hence regardless of the target object's visibility
metadata), every request, and every outcome the storage calls would have
had. -/
theorem unauthorized_mutation_rejected_before_storage
    (σ : StoreState) (reqHeaders : List (String × String))
    (filename body : String) (uploadOk : Bool)
    (fetchStatus : Nat) (fetchDeleted : Bool) (authp : Bool)
    (hauth : authp = false) :
    onRequestPut σ authp reqHeaders filename body uploadOk
        = .ok (⟨401, .text "Unauthorized", []⟩, σ) ∧
    onRequestPatch σ authp reqHeaders filename
        = .ok (⟨401, .text "Unauthorized", []⟩, σ) ∧
    onRequestDelete σ authp filename fetchStatus fetchDeleted
        = .ok (⟨401, .text "Unauthorized", []⟩, σ) := by
  subst hauth
  exact ⟨rfl, rfl, rfl⟩

/-- Claim C4, witness: an unauthorized request against a bucket holding a
public object is still rejected with 401 and the state is untouched. -/
theorem unauthorized_mutation_rejected_before_storage_witness :
    onRequestPut (fun _ => some ⟨"B", [("x-store-visibility", "public")]⟩)
        false [("x-store-a", "1")] "k" "body" true
      = .ok (⟨401, .text "Unauthorized", []⟩,
             fun _ => some ⟨"B", [("x-store-visibility", "public")]⟩) ∧
    onRequestPatch (fun _ => some ⟨"B", [("x-store-visibility", "public")]⟩)
        false [("x-store-a", "1")] "k"
      = .ok (⟨401, .text "Unauthorized", []⟩,
             fun _ => some ⟨"B", [("x-store-visibility", "public")]⟩) ∧
    onRequestDelete (fun _ => some ⟨"B", [("x-store-visibility", "public")]⟩)
        false "k" 500 false
      = .ok (⟨401, .text "Unauthorized", []⟩,
             fun _ => some ⟨"B", [("x-store-visibility", "public")]⟩) :=
  unauthorized_mutation_rejected_before_storage
    (fun _ => some ⟨"B", [("x-store-visibility", "public")]⟩)
    [("x-store-a", "1")] "k" "body" true 500 false false rfl

/-- Claim C7: on GET, every storage retrieval failure — the object absent
(`noSuchKey`) or any other storage error — produces exactly the 404
"Not found" response; no other error kind reaches the caller from the
retrieval. -/
theorem get_storage_failure_404
    (store : String → Except S3Error GetObjectCommandOutput) (authp : Bool)
    (filename k : String) (e : S3Error)
    (hdec : decodeURIComponent filename = some k)
    (hstore : store (stripTrailingSlash k) = .error e) :
    onRequestGet store authp filename = .ok ⟨404, .text "Not found", []⟩ := by
  simp [onRequestGet, hdec, hstore]

/-- Claim C7, witness: a non-not-found storage failure (`S3Error.other`)
also collapses to the 404 response. -/
theorem get_storage_failure_404_witness :
    decodeURIComponent "a" = some "a" ∧
    onRequestGet (fun _ => .error .other) true "a"
      = .ok ⟨404, .text "Not found", []⟩ :=
  ⟨by decide,
   get_storage_failure_404 (fun _ => .error .other) true "a" "a" .other
     (by decide) rfl⟩

/-- Claim C9: when the credential predicate passes and the presigned-URL
fetch completes, the DELETE handler answers 200 "OK" for every HTTP status
the storage service returns on that fetch (and whether or not the delete
actually happened): the fetched response is never inspected and a
storage-side failure status is never surfaced. -/
theorem delete_ignores_storage_status
    (σ : StoreState) (filename key : String) (fetchStatus : Nat)
    (fetchDeleted : Bool)
    (hdec : decodeURIComponent filename = some key) :
    onRequestDelete σ true filename fetchStatus fetchDeleted
      = .ok (⟨200, .text "OK", []⟩,
             if fetchDeleted then fun k => if k = key then none else σ k
             else σ) := by
  simp [onRequestDelete, hdec]

/-- Claim C9, witness: a storage-side delete failure (status 500, object not
removed) still yields 200 "OK". -/
theorem delete_ignores_storage_status_witness :
    decodeURIComponent "a" = some "a" ∧
    onRequestDelete (fun _ => none) true "a" 500 false
      = .ok (⟨200, .text "OK", []⟩, fun _ => none) :=
  ⟨by decide,
   delete_ignores_storage_status (fun _ => none) "a" "a" 500 false (by decide)⟩

/-- Claim C8: an authorized PATCH on an existing object replaces its metadata
wholesale with exactly the request's `x-store-*` headers while keeping its
content, leaving every other key untouched; on a missing object the copy
rejection propagates as an error (no success response, no creation). -/
theorem patch_replaces_metadata_wholesale
    (σ : StoreState) (reqHeaders : List (String × String))
    (filename key : String)
    (hdec : decodeURIComponent filename = some key) :
    (σ key = none →
        onRequestPatch σ true reqHeaders filename = .error .s3Error) ∧
    (∀ obj, σ key = some obj →
        onRequestPatch σ true reqHeaders filename
          = .ok (⟨200, .text "OK", []⟩,
                 updateState σ key ⟨obj.body, xStoreHeaders reqHeaders⟩) ∧
        updateState σ key ⟨obj.body, xStoreHeaders reqHeaders⟩ key
          = some ⟨obj.body, xStoreHeaders reqHeaders⟩ ∧
        ∀ k, k ≠ key →
          updateState σ key ⟨obj.body, xStoreHeaders reqHeaders⟩ k = σ k) := by
  refine ⟨fun h => ?_, fun obj h => ⟨?_, ?_, fun k hk => ?_⟩⟩
  · simp [onRequestPatch, hdec, copyObject, h]
  · simp [onRequestPatch, hdec, copyObject, h]
  · simp [updateState]
  · simp [updateState, hk]

/-- Claim C8, witness: PATCH with metadata `{a:1, b:2}` stored and request
headers `x-store-c: 3` (plus a non-`x-store-` header) leaves content `B` and
metadata exactly `{x-store-c: 3}`; PATCH on a missing key errors. -/
theorem patch_replaces_metadata_wholesale_witness :
    decodeURIComponent "a" = some "a" ∧
    xStoreHeaders [("x-store-c", "3"), ("content-type", "t")]
      = [("x-store-c", "3")] ∧
    onRequestPatch
        (fun k => if k = "a" then some ⟨"B", [("a", "1"), ("b", "2")]⟩ else none)
        true [("x-store-c", "3"), ("content-type", "t")] "a"
      = .ok (⟨200, .text "OK", []⟩,
             updateState
               (fun k => if k = "a" then some ⟨"B", [("a", "1"), ("b", "2")]⟩
                         else none)
               "a" ⟨"B", xStoreHeaders [("x-store-c", "3"), ("content-type", "t")]⟩) ∧
    onRequestPatch (fun _ => none) true [] "a" = .error .s3Error :=
  ⟨by decide, by decide,
   ((patch_replaces_metadata_wholesale
       (fun k => if k = "a" then some ⟨"B", [("a", "1"), ("b", "2")]⟩ else none)
       [("x-store-c", "3"), ("content-type", "t")] "a" "a" (by decide)).2
     ⟨"B", [("a", "1"), ("b", "2")]⟩ (by decide)).1,
   (patch_replaces_metadata_wholesale (fun _ => none) [] "a" "a"
     (by decide)).1 rfl⟩

/-- A successful storage output whose `ETag` field alone is absent; every
field the read handler dereferences is present. -/
def etagAbsentOut : GetObjectCommandOutput :=
  { Metadata := some [("x-store-visibility", "public")]
    ContentType := some "text/plain"
    ContentLength := some 1
    LastModified := some "Thu, 01 Jan 1970 00:00:00 GMT"
    ETag := none
    Body := "B0" }

/-- Claim C10, counterexample: with `Metadata`, `ContentLength` and
`LastModified` present but `ETag` absent, the GET handler does not throw —
`headers.set("etag", undefined)` coerces the value to the string
`"undefined"` — and an HTTP response is returned. So absence of "any of
these" fields does not imply a throw. -/
theorem get_absent_etag_still_responds :
    (onRequestGet (fun _ => .ok etagAbsentOut) false "a").isOk = true ∧
    respHeader "etag" (onRequestGet (fun _ => .ok etagAbsentOut) false "a")
      = some "undefined" := by
  decide

/-- Claim C10, amended: on a successful retrieval the GET handler throws a
`TypeError` while building headers when `Metadata`, `ContentLength` or
`LastModified` is absent (in that evaluation order); an absent `ETag` alone
does not throw — its header value is coerced — and the handler still returns
an HTTP response. -/
theorem get_absent_fields_throw
    (store : String → Except S3Error GetObjectCommandOutput) (authp : Bool)
    (filename k : String) (out : GetObjectCommandOutput)
    (hdec : decodeURIComponent filename = some k)
    (hstore : store (stripTrailingSlash k) = .ok out) :
    (out.Metadata = none →
        onRequestGet store authp filename = .error .typeError) ∧
    (∀ md, out.Metadata = some md → out.ContentLength = none →
        onRequestGet store authp filename = .error .typeError) ∧
    (∀ md len, out.Metadata = some md → out.ContentLength = some len →
        out.LastModified = none →
        onRequestGet store authp filename = .error .typeError) ∧
    (∀ md len lm, out.Metadata = some md → out.ContentLength = some len →
        out.LastModified = some lm →
        ∃ r, onRequestGet store authp filename = .ok r) := by
  refine ⟨fun h => ?_, fun md hmd hlen => ?_, fun md len hmd hlen hlm => ?_,
    fun md len lm hmd hlen hlm => ?_⟩
  · simp [onRequestGet, hdec, hstore, h]
  · simp [onRequestGet, hdec, hstore, hmd, hlen]
  · simp [onRequestGet, hdec, hstore, hmd, hlen, hlm]
  · simp only [onRequestGet, hdec, hstore, hmd, hlen, hlm]
    exact exists_ok_ite _ _ _

/-- Claim C10, witness: absent `Metadata` throws; with the three dereferenced
fields present (`ETag` still absent) a response is returned. -/
theorem get_absent_fields_throw_witness :
    decodeURIComponent "a" = some "a" ∧
    onRequestGet
        (fun _ => .ok ⟨none, some "text/plain", some 1, some "D", some "E", "B"⟩)
        true "a"
      = .error .typeError ∧
    (∃ r, onRequestGet (fun _ => .ok etagAbsentOut) true "a" = .ok r) :=
  ⟨by decide,
   (get_absent_fields_throw _ true "a" "a"
     ⟨none, some "text/plain", some 1, some "D", some "E", "B"⟩
     (by decide) rfl).1 rfl,
   (get_absent_fields_throw _ true "a" "a" etagAbsentOut (by decide) rfl).2.2.2
     [("x-store-visibility", "public")] 1 "Thu, 01 Jan 1970 00:00:00 GMT"
     rfl rfl rfl⟩

/-- Claim C3: on a GET whose retrieval succeeds (all dereferenced fields
present), if the object's `x-store-visibility` metadata — as projected onto
the response headers — equals `"public"`, the object is served (200, body
streamed) for every value of the credential predicate; otherwise it is
served only when the predicate is true, and on denial the response is
exactly 404 "Not found" — never a distinct forbidden status — with the
object body not sent. -/
theorem get_visibility_gate
    (store : String → Except S3Error GetObjectCommandOutput)
    (filename k0 : String) (out : GetObjectCommandOutput)
    (md : List (String × String)) (len : Nat) (lm : String)
    (hdec : decodeURIComponent filename = some k0)
    (hstore : store (stripTrailingSlash k0) = .ok out)
    (hmd : out.Metadata = some md)
    (hlen : out.ContentLength = some len)
    (hlm : out.LastModified = some lm) :
    (headersGet (mdHeaders md) "x-store-visibility" = some "public" →
        ∀ authp,
          respStatus (onRequestGet store authp filename) = some 200 ∧
          respBody (onRequestGet store authp filename)
            = some (.stream out.Body)) ∧
    (headersGet (mdHeaders md) "x-store-visibility" ≠ some "public" →
        (respStatus (onRequestGet store true filename) = some 200 ∧
         respBody (onRequestGet store true filename)
           = some (.stream out.Body)) ∧
        onRequestGet store false filename
          = .ok ⟨404, .text "Not found", []⟩) := by
  constructor
  · intro hpub authp
    simp only [onRequestGet, hdec, hstore, hmd, hlen, hlm,
      headersGet_vis_chain, hpub]
    simp [respStatus, respBody]
  · intro hpriv
    constructor
    · simp only [onRequestGet, hdec, hstore, hmd, hlen, hlm,
        headersGet_vis_chain]
      simp [respStatus, respBody]
    · simp only [onRequestGet, hdec, hstore, hmd, hlen, hlm,
        headersGet_vis_chain]
      simp [hpriv]

/-- Claim C3, witness: a public object is served without credentials; a
non-public object without credentials yields exactly the 404 response. -/
theorem get_visibility_gate_witness :
    respStatus (onRequestGet
        (fun _ => .ok ⟨some [("x-store-visibility", "public")],
          some "text/plain", some 1, some "D", some "E", "B"⟩) false "f")
      = some 200 ∧
    onRequestGet
        (fun _ => .ok ⟨some [("x-store-secret", "1")],
          some "text/plain", some 1, some "D", some "E", "B"⟩) false "f"
      = .ok ⟨404, .text "Not found", []⟩ :=
  ⟨((get_visibility_gate _ "f" "f"
      ⟨some [("x-store-visibility", "public")], some "text/plain", some 1,
        some "D", some "E", "B"⟩
      [("x-store-visibility", "public")] 1 "D"
      (by decide) rfl rfl rfl rfl).1 (by decide) false).1,
   ((get_visibility_gate _ "f" "f"
      ⟨some [("x-store-secret", "1")], some "text/plain", some 1,
        some "D", some "E", "B"⟩
      [("x-store-secret", "1")] 1 "D"
      (by decide) rfl rfl rfl rfl).2 (by decide)).2⟩

/-- Claim C6: on a served GET (authorized, retrieval successful), the
response's `content-type` header is resolved exactly as: when the object's
`x-store-type` metadata equals `"text"` it is unconditionally
`text/plain;charset=utf-8`, taking precedence over everything else;
otherwise, when the stored content-type is the sentinel
`application/octet-stream` it is the `mime` table lookup of the key's
extension, falling back to the sentinel when no entry matches; otherwise it
is the stored content-type verbatim (an absent stored type is coerced to the
string `"undefined"`). The resolved value is never the empty string as long
as the stored content-type is not itself the empty string. -/
theorem get_content_type_resolution
    (store : String → Except S3Error GetObjectCommandOutput)
    (filename k0 : String) (out : GetObjectCommandOutput)
    (md : List (String × String)) (len : Nat) (lm : String)
    (hdec : decodeURIComponent filename = some k0)
    (hstore : store (stripTrailingSlash k0) = .ok out)
    (hmd : out.Metadata = some md)
    (hlen : out.ContentLength = some len)
    (hlm : out.LastModified = some lm) :
    (md.lookup "x-store-type" = some "text" →
        respHeader "content-type" (onRequestGet store true filename)
          = some "text/plain;charset=utf-8") ∧
    (md.lookup "x-store-type" ≠ some "text" →
        (out.ContentType = some "application/octet-stream" →
            respHeader "content-type" (onRequestGet store true filename)
              = some ((mimeGetType (stripTrailingSlash k0)).getD
                  "application/octet-stream")) ∧
        (out.ContentType ≠ some "application/octet-stream" →
            respHeader "content-type" (onRequestGet store true filename)
              = some (jsStringOf out.ContentType))) ∧
    (out.ContentType ≠ some "" →
        ∀ v, respHeader "content-type" (onRequestGet store true filename)
            = some v → v ≠ "") := by
  have hcore : respHeader "content-type" (onRequestGet store true filename)
      = some (if md.lookup "x-store-type" = some "text"
              then "text/plain;charset=utf-8"
              else if out.ContentType ≠ some "application/octet-stream"
              then jsStringOf out.ContentType
              else (mimeGetType (stripTrailingSlash k0)).getD
                "application/octet-stream") := by
    by_cases hxt : md.lookup "x-store-type" = some "text"
    · simp only [onRequestGet, hdec, hstore, hmd, hlen, hlm]
      simp [hxt, respHeader, headersGet_ct_after, headersGet_headersSet_same]
    · simp only [onRequestGet, hdec, hstore, hmd, hlen, hlm]
      simp [hxt, respHeader, headersGet_ct_after, headersGet_headersSet_same]
  refine ⟨fun hxt => ?_, fun hxt => ⟨fun hct => ?_, fun hct => ?_⟩,
    fun hne v hv => ?_⟩
  · rw [hcore]; simp [hxt]
  · rw [hcore]; simp [hxt, hct]
  · rw [hcore]; simp [hxt, hct]
  · rw [hcore] at hv
    have hx := Option.some_inj.mp hv
    subst hx
    by_cases hxt : md.lookup "x-store-type" = some "text"
    · simp [hxt]
    · by_cases hct : out.ContentType = some "application/octet-stream"
      · simp only [if_neg hxt, hct, ne_eq, not_true_eq_false, if_false]
        rcases hm : mimeGetType (stripTrailingSlash k0) with _ | m
        · simp
        · simpa using mimeGetType_ne_empty _ m hm
      · simp only [if_neg hxt, if_pos hct]
        rcases hoc : out.ContentType with _ | s
        · simp [jsStringOf]
        · rw [hoc] at hne
          simp only [jsStringOf, ne_eq]
          exact fun e => hne (by rw [e])

/-- Claim C6, witness: with `x-store-type: text` the resolved type is the
UTF-8 plain-text type even for a `.json` key with the sentinel stored; with
no `x-store-type` and the sentinel stored, key `a.json` resolves to the JSON
MIME type from the table. -/
theorem get_content_type_resolution_witness :
    respHeader "content-type" (onRequestGet
        (fun _ => .ok ⟨some [("x-store-type", "text")],
          some "application/octet-stream", some 1, some "D", some "E", "B"⟩)
        true "a.json")
      = some "text/plain;charset=utf-8" ∧
    respHeader "content-type" (onRequestGet
        (fun _ => .ok ⟨some [],
          some "application/octet-stream", some 1, some "D", some "E", "B"⟩)
        true "a.json")
      = some "application/json" :=
  ⟨(get_content_type_resolution _ "a.json" "a.json"
      ⟨some [("x-store-type", "text")], some "application/octet-stream",
        some 1, some "D", some "E", "B"⟩
      [("x-store-type", "text")] 1 "D"
      (by decide) rfl rfl rfl rfl).1 (by decide),
   ((get_content_type_resolution _ "a.json" "a.json"
      ⟨some [], some "application/octet-stream",
        some 1, some "D", some "E", "B"⟩
      [] 1 "D"
      (by decide) rfl rfl rfl rfl).2.1 (by decide)).1 rfl⟩

end FileWorker
